import Mathlib

/-!
# File-transfer session of `udt4/app/recvfile.cpp` and `udt4/app/sendfile.cpp`

A shallow embedding of the requester (`main` of `recvfile.cpp`, from the
first `udt_send` on) and of the responder session handler (`sendfile` of
`sendfile.cpp`).  Both are sequential programs whose only effects are calls
into the UDT library and into `std::fstream`; they are embedded as trees of
external calls (`Prog`), so that the same definition can be run against an
arbitrary environment (`exec`) and against a peer over a modelled channel
(`session`).

Console output (`cout`) and `udt_getlasterror` are not modelled: they have no
influence on control flow or on any other call.
-/

namespace UdtFile

/-! ## Machine representation of integers -/

/-- One octet. -/
abbrev Byte := Fin 256

/-- The value of `UDT::ERROR`. -/
def ERROR : Int := -1

/-- Little-endian digits of `v`, `width` of them. -/
def leBytes : Nat → Nat → List Byte
  | 0, _ => []
  | w + 1, v => Fin.ofNat (v % 256) :: leBytes w (v / 256)

/-- The natural number denoted by little-endian digits. -/
def leValue : List Byte → Nat
  | [] => 0
  | b :: bs => b.val + 256 * leValue bs

/-- Two's complement: the unsigned reading of a signed value in `bits` bits. -/
def toUnsigned (bits : Nat) (v : Int) : Nat := (v % (2 : Int) ^ bits).toNat

/-- Two's complement: the signed reading of an unsigned value in `bits` bits. -/
def toSigned (bits : Nat) (u : Nat) : Int :=
  if u % 2 ^ bits < 2 ^ (bits - 1) then ((u % 2 ^ bits : Nat) : Int)
  else ((u % 2 ^ bits : Nat) : Int) - (2 : Int) ^ bits

/-- The object representation of a `width`-byte signed integer holding `v`,
as `(char*)&x` exposes it.  `bigEndian` is the byte order of the host. -/
def encodeInt (bigEndian : Bool) (width : Nat) (v : Int) : List Byte :=
  let le := leBytes width (toUnsigned (8 * width) v)
  if bigEndian then le.reverse else le

/-- The value of a `width`-byte signed integer whose object representation
is the first `width` bytes of `bs`. -/
def decodeInt (bigEndian : Bool) (width : Nat) (bs : List Byte) : Int :=
  let b := bs.take width
  toSigned (8 * width) (leValue (if bigEndian then b.reverse else b))

/-- Conversion to `int` (32 bits). -/
def toInt32 (v : Int) : Int := toSigned 32 (toUnsigned 32 v)

/-- Conversion to `int64_t`. -/
def toInt64 (v : Int) : Int := toSigned 64 (toUnsigned 64 v)

/-! ## Memory -/

/-- The contents of an uninitialised object of `cap` bytes: indeterminate,
given by the first `cap` bytes of `junk` (padded when `junk` is shorter). -/
def uninit (cap : Nat) (junk : List Byte) : List Byte :=
  (junk ++ List.replicate cap 0).take cap

/-- The buffer after `data` has been stored at its start. -/
def store (buf data : List Byte) : List Byte :=
  data ++ buf.drop data.length

/-- `strlen`: the number of bytes before the first NUL. -/
def strlen (mem : List Byte) : Nat :=
  (mem.takeWhile (fun b => b != 0)).length

/-- The C string that starts at `mem`: the bytes before the first NUL. -/
def cstr (mem : List Byte) : List Byte :=
  mem.takeWhile (fun b => b != 0)

/-- The memory image of a command-line argument: its bytes and the
terminating NUL. -/
def argvMem (arg : List Byte) : List Byte := arg ++ [0]

/-! ## External calls -/

/-- The calls the two programs make into the UDT library and `std::fstream`.
The socket argument is omitted: each program uses one socket. -/
inductive Call where
  /-- `udt_send(fhandle, buf, len, 0)`; `data` is the region `buf[0..len)`. -/
  | udt_send (data : List Byte) (len : Int)
  /-- `udt_recv(fhandle, buf, len, 0)`. -/
  | udt_recv (len : Int)
  /-- `udt_sendfile(fhandle, ifs, offset, size)`. -/
  | udt_sendfile (offset size : Int)
  /-- `udt_recvfile(fhandle, ofs, offset, size)`. -/
  | udt_recvfile (offset size : Int)
  /-- `udt_perfmon(fhandle, &trace)`. -/
  | udt_perfmon
  /-- `udt_close(fhandle)`. -/
  | udt_close
  /-- `udt_cleanup()`. -/
  | udt_cleanup
  /-- `fstream ifs(name, ios::in | ios::binary)`. -/
  | ifs_open (name : List Byte)
  /-- `ifs.seekg(0, ios::end)`. -/
  | ifs_seekg_end
  /-- `ifs.tellg()`. -/
  | ifs_tellg
  /-- `ifs.seekg(0, ios::beg)`. -/
  | ifs_seekg_beg
  /-- `ifs.close()`, explicit or by the destructor of an open stream. -/
  | ifs_close
  /-- `fstream ofs(name, ios::out | ios::binary | ios::trunc)`. -/
  | ofs_open (name : List Byte)
  /-- `ofs.close()`, explicit or by the destructor of an open stream. -/
  | ofs_close
  deriving DecidableEq, Repr

/-- What a call gives back: its return value and, for `udt_recv`, the bytes
it deposited in the buffer.  For `ifs_open` and `ofs_open`, `ret = 0` means
that the file was opened; for `ifs_tellg`, `ret` is the position. -/
structure Reply where
  ret : Int
  data : List Byte
  deriving DecidableEq, Repr

/-- One external call together with its reply. -/
structure Event where
  call : Call
  reply : Reply
  deriving DecidableEq, Repr

/-- A sequential program: it returns, or makes an external call and goes on
with the reply. -/
inductive Prog (α : Type) where
  | ret : α → Prog α
  | op : Call → (Reply → Prog α) → Prog α

namespace Prog

/-- Sequencing. -/
def bind {α β : Type} : Prog α → (α → Prog β) → Prog β
  | ret a, f => f a
  | op c k, f => op c (fun r => bind (k r) f)

instance : Monad Prog where
  pure := ret
  bind := bind

/-- A single external call. -/
def call (c : Call) : Prog Reply := op c ret

end Prog

open Prog (call)

/-- An environment: a state and the reply it gives to each call. -/
structure Env (W : Type) where
  handle : W → Call → Reply × W

/-- Run a program against an environment in which every call returns:
the value returned and the events in order. -/
def exec {W α : Type} (env : Env W) : Prog α → W → α × List Event
  | .ret a, _ => (a, [])
  | .op c k, w =>
    let rw := env.handle w c
    let at_ := exec env (k rw.1) rw.2
    (at_.1, ⟨c, rw.1⟩ :: at_.2)

/-- The calls of a trace. -/
def calls (t : List Event) : List Call := t.map Event.call

/-! ## The requester: `main` of `recvfile.cpp` -/

/-- The body of `main` of `recvfile.cpp` once connected (the source's
lines 52 to 100).  `remote` is `argv[3]`, `dst` is `argv[4]`, `sizeJunk` the
indeterminate initial contents of `int64_t size`. -/
def main (bigEndian : Bool) (remote dst : List Byte) (sizeJunk : List Byte) : Prog Int := do
  -- int len = strlen(argv[3]);
  let len : Int := toInt32 (strlen (argvMem remote))
  -- udt_send(fhandle, (char*)&len, sizeof(int), 0)
  let s1 ← call (.udt_send (encodeInt bigEndian 4 len) 4)
  if s1.ret = ERROR then
    return -1
  -- udt_send(fhandle, argv[3], len, 0)
  let s2 ← call (.udt_send ((argvMem remote).take len.toNat) len)
  if s2.ret = ERROR then
    return -1
  -- int64_t size; udt_recv(fhandle, (char*)&size, sizeof(int64_t), 0)
  let r ← call (.udt_recv 8)
  if r.ret = ERROR then
    return -1
  let size : Int := decodeInt bigEndian 8 (store (uninit 8 sizeJunk) (r.data.take 8))
  if size < 0 then
    return -1
  -- fstream ofs(argv[4], ios::out | ios::binary | ios::trunc);
  let o ← call (.ofs_open (cstr (argvMem dst)))
  -- int64_t offset = 0; recvsize = udt_recvfile(fhandle, ofs, offset, size)
  let rf ← call (.udt_recvfile 0 size)
  let recvsize : Int := rf.ret
  if recvsize = ERROR then
    -- the destructor of ofs runs on this return
    if o.ret = 0 then
      let _ ← call .ofs_close
    return -1
  let _ ← call .udt_close
  let _ ← call .ofs_close
  let _ ← call .udt_cleanup
  return 0

/-! ## The responder: `sendfile` of `sendfile.cpp` -/

/-- How a run of the session handler ends: it returns, or it accesses
`file` outside its 1024 bytes (undefined behaviour, the run is cut there). -/
inductive Exit where
  | returned
  | outOfBounds
  deriving DecidableEq, Repr

/-- The session handler `sendfile` of `sendfile.cpp` (the source's lines 108
to 170).  `lenJunk` and `fileJunk` are the indeterminate initial contents of
`int len` and `char file[1024]`. -/
def sendfile (bigEndian : Bool) (lenJunk fileJunk : List Byte) : Prog Exit := do
  -- char file[1024]; int len;
  -- udt_recv(fhandle, (char*)&len, sizeof(int), 0)
  let r1 ← call (.udt_recv 4)
  if r1.ret = ERROR then
    return .returned
  let len : Int := decodeInt bigEndian 4 (store (uninit 4 lenJunk) (r1.data.take 4))
  -- udt_recv(fhandle, file, len, 0): the library stores at most len bytes,
  -- and none when it fails
  let r2 ← call (.udt_recv len)
  if r2.ret = ERROR then
    return .returned
  let got := r2.data.take len.toNat
  if 1024 < got.length then
    return .outOfBounds
  let file := store (uninit 1024 fileJunk) got
  -- file[len] = 0;
  if ¬ (0 ≤ len ∧ len < 1024) then
    return .outOfBounds
  let file := file.set len.toNat 0
  -- fstream ifs(file, ios::in | ios::binary);
  let o ← call (.ifs_open (cstr file))
  -- ifs.seekg(0, ios::end);
  let _ ← call .ifs_seekg_end
  -- int64_t size = ifs.tellg();  (tellg returns -1 on a stream that failed to open)
  let t ← call .ifs_tellg
  let size : Int := if o.ret = 0 then toInt64 t.ret else -1
  -- ifs.seekg(0, ios::beg);
  let _ ← call .ifs_seekg_beg
  -- udt_send(fhandle, (char*)&size, sizeof(int64_t), 0)
  let s ← call (.udt_send (encodeInt bigEndian 8 size) 8)
  if s.ret = ERROR then
    -- the destructor of ifs runs on this return
    if o.ret = 0 then
      let _ ← call .ifs_close
    return .returned
  let _ ← call .udt_perfmon
  -- int64_t offset = 0; udt_sendfile(fhandle, ifs, offset, size)
  let sf ← call (.udt_sendfile 0 size)
  if sf.ret = ERROR then
    if o.ret = 0 then
      let _ ← call .ifs_close
    return .returned
  let _ ← call .udt_perfmon
  let _ ← call .udt_close
  let _ ← call .ifs_close
  return .returned

/-! ## Scripted environments -/

/-- The environment that answers the calls with the replies of a script, in
order, and with `ret = 0` and no data once the script is used up. -/
def scripted : Env (List Reply) where
  handle := fun w _ =>
    match w with
    | [] => (⟨0, []⟩, [])
    | r :: rest => (r, rest)

/-! ## Quantities the statements refer to -/

/-- The value of `size` in `main` after the size-header receive replied `r`. -/
def sizeHeader (bigEndian : Bool) (sizeJunk : List Byte) (r : Reply) : Int :=
  decodeInt bigEndian 8 (store (uninit 8 sizeJunk) (r.data.take 8))

/-- The value of `len` in `sendfile` after the first receive replied `r`. -/
def lenField (bigEndian : Bool) (lenJunk : List Byte) (r : Reply) : Int :=
  decodeInt bigEndian 4 (store (uninit 4 lenJunk) (r.data.take 4))

/-- The `udt_send` calls of a trace, in order. -/
def sendCalls (t : List Event) : List Call :=
  (calls t).filter (fun c => match c with
    | .udt_send _ _ => true
    | _ => false)

/-! ## One session over an ideal transport -/

/-- Modelled from the spec: the transport library (`udt_send`, `udt_recv`,
`udt_sendfile`, `udt_recvfile`, `udt_close`) and the stream library are not
among the sources.  This is the state of one session over the transport of
the spec, "a reliable, ordered, connection-oriented byte-stream", together
with the two filesystems: the bytes in flight in each direction, the files the
responder serves, the files on the requester's disk, and the file each stream
is attached to. -/
structure Net where
  /-- Sent by the requester, not yet received by the responder. -/
  toResponder : List Byte
  /-- Sent by the responder, not yet received by the requester. -/
  toRequester : List Byte
  /-- The responder's filesystem: the contents at each name. -/
  served : List Byte → Option (List Byte)
  /-- The contents of the file `ifs` is attached to, and the read position. -/
  ifs : Option (List Byte)
  ifsPos : Nat
  /-- The requester's filesystem. -/
  disk : List Byte → Option (List Byte)
  /-- The name of the file `ofs` is attached to. -/
  ofs : Option (List Byte)
  /-- Whether each side has returned, which closes its end. -/
  requesterDone : Bool
  responderDone : Bool

/-- Modelled from the spec: a blocking receive of `len` bytes from a queue
whose writer has or has not finished, "receive(stream, maxBytes) -> bytes |
error", delivered completely.  Nothing is asked for when `len ≤ 0`; the call
waits (`none`) while the bytes are not all there and the writer is alive, and
fails when the writer is gone. -/
def recvFrom (queue : List Byte) (writerDone : Bool) (len : Int) :
    Option (Reply × List Byte) :=
  if len ≤ 0 then some (⟨0, []⟩, queue)
  else if len.toNat ≤ queue.length then
    some (⟨len, queue.take len.toNat⟩, queue.drop len.toNat)
  else if writerDone then some (⟨ERROR, []⟩, queue)
  else none

/-- Modelled from the spec: the reply of the ideal environment to a call of
the responder, `none` while the call blocks.  Opening `ifs` succeeds exactly
when the filesystem serves the name; `udt_sendfile` "streams exactly total
bytes from the file into the connection" and asks for nothing when
`size ≤ 0`. -/
def responderHandle (n : Net) : Call → Option (Reply × Net)
  | .udt_send data _ =>
    some (⟨data.length, []⟩, { n with toRequester := n.toRequester ++ data })
  | .udt_recv len =>
    (recvFrom n.toResponder n.requesterDone len).map
      (fun rq => (rq.1, { n with toResponder := rq.2 }))
  | .ifs_open name =>
    match n.served name with
    | some content => some (⟨0, []⟩, { n with ifs := some content, ifsPos := 0 })
    | none => some (⟨1, []⟩, { n with ifs := none })
  | .ifs_seekg_end =>
    some (⟨0, []⟩, { n with ifsPos := (n.ifs.getD []).length })
  | .ifs_tellg =>
    match n.ifs with
    | some _ => some (⟨n.ifsPos, []⟩, n)
    | none => some (⟨-1, []⟩, n)
  | .ifs_seekg_beg => some (⟨0, []⟩, { n with ifsPos := 0 })
  | .udt_sendfile offset size =>
    if size ≤ 0 then some (⟨0, []⟩, n)
    else match n.ifs with
      | none => some (⟨ERROR, []⟩, n)
      | some content =>
        let data := (content.drop offset.toNat).take size.toNat
        some (⟨data.length, []⟩, { n with toRequester := n.toRequester ++ data })
  | .ifs_close => some (⟨0, []⟩, { n with ifs := none })
  | _ => some (⟨0, []⟩, n)

theorem length_leBytes (w v : Nat) : (leBytes w v).length = w := by
  induction w generalizing v with
  | zero => rfl
  | succ w ih => simp [leBytes, ih]

theorem leValue_leBytes (w v : Nat) : leValue (leBytes w v) = v % 256 ^ w := by
  induction w generalizing v with
  | zero => simp [leBytes, leValue, Nat.mod_one]
  | succ w ih =>
    simp only [leBytes, leValue, ih, Fin.ofNat, Nat.mod_mod]
    rw [pow_succ, mul_comm (256 ^ w) 256, Nat.mod_mul]

theorem length_encodeInt (be : Bool) (w : Nat) (v : Int) : (encodeInt be w v).length = w := by
  unfold encodeInt
  cases be <;> simp [length_leBytes]

theorem take_encodeInt_append (be : Bool) (w : Nat) (v : Int) (rest : List Byte) :
    (encodeInt be w v ++ rest).take w = encodeInt be w v := by
  rw [List.take_append_of_le_length (by rw [length_encodeInt]), List.take_of_length_le (by rw [length_encodeInt])]

theorem decodeInt_encodeInt (be : Bool) (w : Nat) (v : Int) (rest : List Byte) :
    decodeInt be w (encodeInt be w v ++ rest) = toSigned (8 * w) (toUnsigned (8 * w) v % 256 ^ w) := by
  unfold decodeInt
  simp only [take_encodeInt_append]
  unfold encodeInt
  cases be <;> simp [leValue_leBytes]

theorem toSigned_toUnsigned_32 (v : Int) (h1 : -2 ^ 31 ≤ v) (h2 : v < 2 ^ 31) :
    toSigned 32 (toUnsigned 32 v % 256 ^ 4) = v := by
  unfold toSigned toUnsigned
  norm_num
  split_ifs <;> omega

theorem toInt32_of_range (v : Int) (h1 : -2 ^ 31 ≤ v) (h2 : v < 2 ^ 31) : toInt32 v = v := by
  unfold toInt32 toSigned toUnsigned
  norm_num
  split_ifs <;> omega

theorem decodeInt_encodeInt_32 (be : Bool) (v : Int) (rest : List Byte)
    (h1 : -2 ^ 31 ≤ v) (h2 : v < 2 ^ 31) : decodeInt be 4 (encodeInt be 4 v ++ rest) = v := by
  rw [decodeInt_encodeInt]; exact toSigned_toUnsigned_32 v h1 h2

theorem takeWhile_nonzero_append (l rest : List Byte) (h : ∀ b ∈ l, b ≠ 0) :
    (l ++ 0 :: rest).takeWhile (fun b => b != 0) = l := by
  induction l with
  | nil => simp
  | cons a l ih =>
    have ha : a ≠ 0 := h a (List.mem_cons_self _ _)
    have hl : ∀ b ∈ l, b ≠ 0 := fun b hb => h b (List.mem_cons_of_mem _ hb)
    simp [List.takeWhile_cons, ha, ih hl]

theorem strlen_argvMem (arg : List Byte) (h : ∀ b ∈ arg, b ≠ 0) :
    strlen (argvMem arg) = arg.length := by
  unfold strlen argvMem; rw [takeWhile_nonzero_append arg [] h]

theorem take_argvMem (arg : List Byte) : (argvMem arg).take arg.length = arg := by
  unfold argvMem
  rw [List.take_append_of_le_length (le_refl _), List.take_length]

theorem len_of_name (remote : List Byte) (hnul : ∀ b ∈ remote, b ≠ 0)
    (hlen : remote.length < 2 ^ 31) :
    toInt32 (strlen (argvMem remote)) = remote.length := by
  rw [strlen_argvMem remote hnul]
  apply toInt32_of_range <;> omega

/-! ## The requester against an arbitrary environment -/

theorem exec_ite {W α : Type} (env : Env W) (c : Prop) [Decidable c] (a b : Prog α) (w : W) :
    exec env (if c then a else b) w = if c then exec env a w else exec env b w := by
  split <;> rfl

/-- C2. In every session in which the size header that `main` of
`recvfile.cpp` receives is negative, `main` returns -1, never calls
`udt_recvfile`, and does not touch the local destination: it neither opens
nor closes `ofs`, so no byte is written to it. -/
theorem main_negative_size_header {W : Type} (env : Env W) (w : W) (be : Bool)
    (remote dst junk : List Byte) (r : Reply)
    (hrecv : (⟨Call.udt_recv 8, r⟩ : Event) ∈ (exec env (main be remote dst junk) w).2)
    (hneg : sizeHeader be junk r < 0) :
    (exec env (main be remote dst junk) w).1 = -1 ∧
    (∀ off sz, Call.udt_recvfile off sz ∉ calls (exec env (main be remote dst junk) w).2) ∧
    (∀ nm, Call.ofs_open nm ∉ calls (exec env (main be remote dst junk) w).2) ∧
    Call.ofs_close ∉ calls (exec env (main be remote dst junk) w).2 := by
  simp only [main, bind, Prog.bind, Prog.call, exec, exec_ite, pure, calls,
    ← sizeHeader.eq_1] at hrecv ⊢
  split_ifs at hrecv ⊢ <;>
    simp only [List.mem_cons, List.mem_singleton, Event.mk.injEq, List.map_cons, List.map_nil,
      reduceCtorEq, false_and, false_or, or_false, Call.udt_recv.injEq, true_and,
      List.not_mem_nil, not_false_eq_true, implies_true, and_self, forall_const] at hrecv ⊢
  all_goals (subst hrecv; contradiction)

/-- Witness of `main_negative_size_header`: the size header -1. -/
theorem main_negative_size_header_witness :
    (exec scripted (main false [97] [100] [])
        [⟨4, []⟩, ⟨1, []⟩, ⟨8, [255, 255, 255, 255, 255, 255, 255, 255]⟩]).1 = -1 ∧
    (∀ off sz, Call.udt_recvfile off sz ∉ calls (exec scripted (main false [97] [100] [])
        [⟨4, []⟩, ⟨1, []⟩, ⟨8, [255, 255, 255, 255, 255, 255, 255, 255]⟩]).2) ∧
    (∀ nm, Call.ofs_open nm ∉ calls (exec scripted (main false [97] [100] [])
        [⟨4, []⟩, ⟨1, []⟩, ⟨8, [255, 255, 255, 255, 255, 255, 255, 255]⟩]).2) ∧
    Call.ofs_close ∉ calls (exec scripted (main false [97] [100] [])
        [⟨4, []⟩, ⟨1, []⟩, ⟨8, [255, 255, 255, 255, 255, 255, 255, 255]⟩]).2 :=
  main_negative_size_header scripted _ false [97] [100] []
    ⟨8, [255, 255, 255, 255, 255, 255, 255, 255]⟩ (by decide) (by decide)

/-- C4, counterexample. The size header announces 10 bytes, `udt_recvfile`
returns the count 4, and `main` returns 0. -/
theorem main_short_payload_returns_success :
    (⟨Call.udt_recvfile 0 10, ⟨4, []⟩⟩ : Event) ∈
      (exec scripted (main false [97] [100] [])
        [⟨4, []⟩, ⟨1, []⟩, ⟨8, [10, 0, 0, 0, 0, 0, 0, 0]⟩, ⟨0, []⟩, ⟨4, []⟩]).2 ∧
    (exec scripted (main false [97] [100] [])
        [⟨4, []⟩, ⟨1, []⟩, ⟨8, [10, 0, 0, 0, 0, 0, 0, 0]⟩, ⟨0, []⟩, ⟨4, []⟩]).1 = 0 := by
  decide

/-- C4, amended. In every session that reaches the payload receive, `main`
returns -1 exactly when `udt_recvfile` returns `UDT::ERROR`; for every other
return value, whatever count it is, it closes the connection and returns
0. -/
theorem main_result_of_recvfile {W : Type} (env : Env W) (w : W) (be : Bool)
    (remote dst junk : List Byte) (off sz : Int) (rf : Reply)
    (hrf : (⟨Call.udt_recvfile off sz, rf⟩ : Event) ∈ (exec env (main be remote dst junk) w).2) :
    ((exec env (main be remote dst junk) w).1 = -1 ↔ rf.ret = ERROR) ∧
    ((exec env (main be remote dst junk) w).1 = 0 ↔ rf.ret ≠ ERROR) ∧
    (rf.ret ≠ ERROR → Call.udt_close ∈ calls (exec env (main be remote dst junk) w).2) := by
  simp only [main, bind, Prog.bind, Prog.call, exec, exec_ite, pure, calls,
    ← sizeHeader.eq_1] at hrf ⊢
  split_ifs at hrf ⊢ <;>
    simp only [List.mem_cons, List.mem_singleton, Event.mk.injEq, List.map_cons, List.map_nil,
      reduceCtorEq, false_and, false_or, or_false, Call.udt_recvfile.injEq, true_and,
      List.not_mem_nil, not_false_eq_true, implies_true, and_self, forall_const] at hrf ⊢
  all_goals (obtain ⟨-, rfl⟩ := hrf; simp_all)

/-- Witness of `main_result_of_recvfile`: a payload receive that fails. -/
theorem main_result_of_recvfile_witness :
    ((exec scripted (main false [97] [100] [])
        [⟨4, []⟩, ⟨1, []⟩, ⟨8, [10, 0, 0, 0, 0, 0, 0, 0]⟩, ⟨0, []⟩, ⟨-1, []⟩]).1 = -1 ↔
      (⟨-1, []⟩ : Reply).ret = ERROR) ∧
    ((exec scripted (main false [97] [100] [])
        [⟨4, []⟩, ⟨1, []⟩, ⟨8, [10, 0, 0, 0, 0, 0, 0, 0]⟩, ⟨0, []⟩, ⟨-1, []⟩]).1 = 0 ↔
      (⟨-1, []⟩ : Reply).ret ≠ ERROR) ∧
    ((⟨-1, []⟩ : Reply).ret ≠ ERROR → Call.udt_close ∈
      calls (exec scripted (main false [97] [100] [])
        [⟨4, []⟩, ⟨1, []⟩, ⟨8, [10, 0, 0, 0, 0, 0, 0, 0]⟩, ⟨0, []⟩, ⟨-1, []⟩]).2) :=
  main_result_of_recvfile scripted _ false [97] [100] [] 0 10 ⟨-1, []⟩ (by decide)

/-- C5, counterexample. The receive of the size header returns 3 (bytes
5, 0, 0) into a zeroed `size`; `main` reads `size` as 5, calls
`udt_recvfile` for 5 bytes and returns 0. -/
theorem main_short_size_header_goes_on :
    (⟨Call.udt_recv 8, ⟨3, [5, 0, 0]⟩⟩ : Event) ∈
      (exec scripted (main false [97] [100] [])
        [⟨4, []⟩, ⟨1, []⟩, ⟨3, [5, 0, 0]⟩, ⟨0, []⟩, ⟨5, []⟩]).2 ∧
    Call.udt_recvfile 0 5 ∈
      calls (exec scripted (main false [97] [100] [])
        [⟨4, []⟩, ⟨1, []⟩, ⟨3, [5, 0, 0]⟩, ⟨0, []⟩, ⟨5, []⟩]).2 ∧
    (exec scripted (main false [97] [100] [])
        [⟨4, []⟩, ⟨1, []⟩, ⟨3, [5, 0, 0]⟩, ⟨0, []⟩, ⟨5, []⟩]).1 = 0 := by
  decide

/-- C5, amended. In every session in which the receive of the size header
returns `UDT::ERROR`, `main` returns -1 without reading `size` and without
starting the payload phase: no `ofs` is opened and `udt_recvfile` is not
called. -/
theorem main_size_header_error {W : Type} (env : Env W) (w : W) (be : Bool)
    (remote dst junk : List Byte) (r : Reply)
    (hrecv : (⟨Call.udt_recv 8, r⟩ : Event) ∈ (exec env (main be remote dst junk) w).2)
    (herr : r.ret = ERROR) :
    (exec env (main be remote dst junk) w).1 = -1 ∧
    (∀ off sz, Call.udt_recvfile off sz ∉ calls (exec env (main be remote dst junk) w).2) ∧
    (∀ nm, Call.ofs_open nm ∉ calls (exec env (main be remote dst junk) w).2) := by
  simp only [main, bind, Prog.bind, Prog.call, exec, exec_ite, pure, calls,
    ← sizeHeader.eq_1] at hrecv ⊢
  split_ifs at hrecv ⊢ <;>
    simp only [List.mem_cons, List.mem_singleton, Event.mk.injEq, List.map_cons, List.map_nil,
      reduceCtorEq, false_and, false_or, or_false, Call.udt_recv.injEq, true_and,
      List.not_mem_nil, not_false_eq_true, implies_true, and_self, forall_const] at hrecv ⊢
  all_goals (subst hrecv; contradiction)

/-- Witness of `main_size_header_error`. -/
theorem main_size_header_error_witness :
    (exec scripted (main false [97] [100] []) [⟨4, []⟩, ⟨1, []⟩, ⟨-1, []⟩]).1 = -1 ∧
    (∀ off sz, Call.udt_recvfile off sz ∉
      calls (exec scripted (main false [97] [100] []) [⟨4, []⟩, ⟨1, []⟩, ⟨-1, []⟩]).2) ∧
    (∀ nm, Call.ofs_open nm ∉
      calls (exec scripted (main false [97] [100] []) [⟨4, []⟩, ⟨1, []⟩, ⟨-1, []⟩]).2) :=
  main_size_header_error scripted _ false [97] [100] [] ⟨-1, []⟩ (by decide) (by decide)

/-- C6, the failing input. The first `udt_send` fails: `main` returns -1 and
`udt_close` is not among its calls. -/
theorem main_send_failure_leaves_connection_open :
    (exec scripted (main false [97] [100] []) [⟨-1, []⟩]).1 = -1 ∧
    Call.udt_close ∉ calls (exec scripted (main false [97] [100] []) [⟨-1, []⟩]).2 := by
  decide

/-- C7. For every file name (a C string, so without NUL, shorter than 2^31
bytes), the first call of `main` of `recvfile.cpp` hands the transport the
4 bytes of a signed integer holding `len(name)`, and the `udt_send` calls of
the whole run are that one followed, unless it fails, by one that carries
exactly the `len(name)` bytes of the name: no terminator, nothing else. -/
theorem main_request_encoding {W : Type} (env : Env W) (w : W) (be : Bool)
    (remote dst junk : List Byte) (hnul : ∀ b ∈ remote, b ≠ 0)
    (hlen : remote.length < 2 ^ 31) :
    (encodeInt be 4 remote.length).length = 4 ∧
    decodeInt be 4 (encodeInt be 4 remote.length) = remote.length ∧
    ∃ r rest, (exec env (main be remote dst junk) w).2 =
        ⟨Call.udt_send (encodeInt be 4 remote.length) 4, r⟩ :: rest ∧
      sendCalls (exec env (main be remote dst junk) w).2 =
        if r.ret = ERROR then [Call.udt_send (encodeInt be 4 remote.length) 4]
        else [Call.udt_send (encodeInt be 4 remote.length) 4,
          Call.udt_send remote remote.length] := by
  refine ⟨length_encodeInt _ _ _, ?_, ?_⟩
  · have h := decodeInt_encodeInt_32 be remote.length [] (by omega) (by omega)
    simpa using h
  · simp only [main, bind, Prog.bind, Prog.call, exec, exec_ite, pure, calls, sendCalls,
      len_of_name remote hnul hlen, Int.toNat_ofNat, take_argvMem]
    split_ifs <;> simp_all

/-- Witness of `main_request_encoding`: the name `report.txt`. -/
theorem main_request_encoding_witness :
    (encodeInt false 4 ([114, 101, 112, 111, 114, 116, 46, 116, 120, 116] : List Byte).length).length
      = 4 ∧
    decodeInt false 4
        (encodeInt false 4 ([114, 101, 112, 111, 114, 116, 46, 116, 120, 116] : List Byte).length)
      = ([114, 101, 112, 111, 114, 116, 46, 116, 120, 116] : List Byte).length ∧
    ∃ r rest, (exec scripted
          (main false [114, 101, 112, 111, 114, 116, 46, 116, 120, 116] [100] []) []).2 =
        ⟨Call.udt_send (encodeInt false 4
          ([114, 101, 112, 111, 114, 116, 46, 116, 120, 116] : List Byte).length) 4, r⟩ :: rest ∧
      sendCalls (exec scripted
          (main false [114, 101, 112, 111, 114, 116, 46, 116, 120, 116] [100] []) []).2 =
        if r.ret = ERROR then [Call.udt_send (encodeInt false 4
          ([114, 101, 112, 111, 114, 116, 46, 116, 120, 116] : List Byte).length) 4]
        else [Call.udt_send (encodeInt false 4
          ([114, 101, 112, 111, 114, 116, 46, 116, 120, 116] : List Byte).length) 4,
          Call.udt_send [114, 101, 112, 111, 114, 116, 46, 116, 120, 116]
            ([114, 101, 112, 111, 114, 116, 46, 116, 120, 116] : List Byte).length] :=
  main_request_encoding scripted [] false [114, 101, 112, 111, 114, 116, 46, 116, 120, 116]
    [100] [] (by simp) (by simp)

/-- C8, counterexample. The size header is -1: the calls of `main` are the
two sends and the receive, and `ofs` is never opened on `argv[4]`. -/
theorem main_not_found_never_opens_destination :
    sizeHeader false [] ⟨8, [255, 255, 255, 255, 255, 255, 255, 255]⟩ = -1 ∧
    calls (exec scripted (main false [97] [100] [])
        [⟨4, []⟩, ⟨1, []⟩, ⟨8, [255, 255, 255, 255, 255, 255, 255, 255]⟩]).2 =
      [Call.udt_send [1, 0, 0, 0] 4, Call.udt_send [97] 1, Call.udt_recv 8] ∧
    Call.ofs_open [100] ∉ calls (exec scripted (main false [97] [100] [])
        [⟨4, []⟩, ⟨1, []⟩, ⟨8, [255, 255, 255, 255, 255, 255, 255, 255]⟩]).2 := by
  decide

/-- C8, amended. In every session that reaches the size-header receive,
`main` opens the destination `argv[4]` for truncate-write exactly when that
receive does not return `UDT::ERROR` and the size is not negative, whatever
the payload receive does afterwards; with a negative size header the
destination is not opened at all. -/
theorem main_opens_destination_iff {W : Type} (env : Env W) (w : W) (be : Bool)
    (remote dst junk : List Byte) (r : Reply)
    (hrecv : (⟨Call.udt_recv 8, r⟩ : Event) ∈ (exec env (main be remote dst junk) w).2) :
    (Call.ofs_open (cstr (argvMem dst)) ∈ calls (exec env (main be remote dst junk) w).2 ↔
      r.ret ≠ ERROR ∧ 0 ≤ sizeHeader be junk r) ∧
    (∀ nm, Call.ofs_open nm ∈ calls (exec env (main be remote dst junk) w).2 →
      nm = cstr (argvMem dst)) := by
  simp only [main, bind, Prog.bind, Prog.call, exec, exec_ite, pure, calls,
    ← sizeHeader.eq_1] at hrecv ⊢
  split_ifs at hrecv ⊢ <;>
    simp only [List.mem_cons, List.mem_singleton, Event.mk.injEq, List.map_cons, List.map_nil,
      reduceCtorEq, false_and, false_or, or_false, Call.udt_recv.injEq, true_and,
      List.not_mem_nil, not_false_eq_true, implies_true, and_self, forall_const] at hrecv ⊢
  all_goals (subst hrecv; simp_all)

/-- Witness of `main_opens_destination_iff`: a size header of 10 followed by
a failing payload receive. -/
theorem main_opens_destination_iff_witness :
    (Call.ofs_open (cstr (argvMem [100])) ∈ calls (exec scripted (main false [97] [100] [])
        [⟨4, []⟩, ⟨1, []⟩, ⟨8, [10, 0, 0, 0, 0, 0, 0, 0]⟩, ⟨0, []⟩, ⟨-1, []⟩]).2 ↔
      (⟨8, [10, 0, 0, 0, 0, 0, 0, 0]⟩ : Reply).ret ≠ ERROR ∧
        0 ≤ sizeHeader false [] ⟨8, [10, 0, 0, 0, 0, 0, 0, 0]⟩) ∧
    (∀ nm, Call.ofs_open nm ∈ calls (exec scripted (main false [97] [100] [])
        [⟨4, []⟩, ⟨1, []⟩, ⟨8, [10, 0, 0, 0, 0, 0, 0, 0]⟩, ⟨0, []⟩, ⟨-1, []⟩]).2 →
      nm = cstr (argvMem [100])) :=
  main_opens_destination_iff scripted _ false [97] [100] []
    ⟨8, [10, 0, 0, 0, 0, 0, 0, 0]⟩ (by decide)

/-! ## The responder against an arbitrary environment -/

/-- C3, counterexample. The name `ab` cannot be opened: the handler sends
the size header -1 and then calls `udt_sendfile` with offset 0 and size -1. -/
theorem sendfile_not_found_still_calls_udt_sendfile :
    (⟨Call.ifs_open [97, 98], ⟨1, []⟩⟩ : Event) ∈
      (exec scripted (sendfile false [] []) [⟨4, [2, 0, 0, 0]⟩, ⟨2, [97, 98]⟩, ⟨1, []⟩]).2 ∧
    calls (exec scripted (sendfile false [] [])
        [⟨4, [2, 0, 0, 0]⟩, ⟨2, [97, 98]⟩, ⟨1, []⟩]).2 =
      [Call.udt_recv 4, Call.udt_recv 2, Call.ifs_open [97, 98], Call.ifs_seekg_end,
        Call.ifs_tellg, Call.ifs_seekg_beg,
        Call.udt_send (encodeInt false 8 (-1)) 8, Call.udt_perfmon,
        Call.udt_sendfile 0 (-1), Call.udt_perfmon, Call.udt_close, Call.ifs_close] := by
  decide

/-- C3, amended. For every requested name that cannot be opened, the handler
returns after sending exactly one message, the size header -1; unless that
send fails it goes on to call `udt_sendfile`, and every `udt_sendfile` call
it makes has offset 0 and size -1, which names no payload byte. -/
theorem sendfile_open_failure {W : Type} (env : Env W) (w : W) (be : Bool)
    (lenJunk fileJunk nm : List Byte) (o : Reply)
    (hopen : (⟨Call.ifs_open nm, o⟩ : Event) ∈ (exec env (sendfile be lenJunk fileJunk) w).2)
    (hfail : o.ret ≠ 0) :
    (exec env (sendfile be lenJunk fileJunk) w).1 = Exit.returned ∧
    sendCalls (exec env (sendfile be lenJunk fileJunk) w).2 =
      [Call.udt_send (encodeInt be 8 (-1)) 8] ∧
    (∀ s, (⟨Call.udt_send (encodeInt be 8 (-1)) 8, s⟩ : Event) ∈
        (exec env (sendfile be lenJunk fileJunk) w).2 → s.ret ≠ ERROR →
      Call.udt_sendfile 0 (-1) ∈ calls (exec env (sendfile be lenJunk fileJunk) w).2) ∧
    (∀ off sz, Call.udt_sendfile off sz ∈ calls (exec env (sendfile be lenJunk fileJunk) w).2 →
      off = 0 ∧ sz = -1) := by
  simp only [sendfile, bind, Prog.bind, Prog.call, pure, calls, sendCalls,
    ← lenField.eq_1] at hopen ⊢
  simp only [exec] at hopen ⊢
  generalize env.handle w (Call.udt_recv 4) = a1 at hopen ⊢
  obtain ⟨r1, w1⟩ := a1
  by_cases h1 : r1.ret = ERROR
  · rw [if_pos h1] at hopen; simp [exec] at hopen
  rw [if_neg h1] at hopen ⊢
  simp only [exec] at hopen ⊢
  generalize env.handle w1 (Call.udt_recv _) = a2 at hopen ⊢
  obtain ⟨r2, w2⟩ := a2
  by_cases h2 : r2.ret = ERROR
  · rw [if_pos h2] at hopen; simp [exec] at hopen
  rw [if_neg h2] at hopen ⊢
  split_ifs at hopen ⊢ with hb1 hb2
  · simp [exec] at hopen
  swap
  · simp [exec] at hopen
  simp only [exec] at hopen ⊢
  generalize env.handle w2 (Call.ifs_open _) = a3 at hopen ⊢
  obtain ⟨o3, w3⟩ := a3
  simp only [exec_ite, exec] at hopen ⊢
  split_ifs at hopen ⊢ <;>
    simp only [List.mem_cons, List.mem_singleton, Event.mk.injEq, List.map_cons, List.map_nil,
      reduceCtorEq, false_and, false_or, or_false, Call.ifs_open.injEq, true_and,
      List.not_mem_nil, not_false_eq_true, implies_true, and_self, forall_const,
      List.filter_cons, List.filter_nil] at hopen ⊢
  all_goals (obtain ⟨-, rfl⟩ := hopen; clear hb1 hb2)
  all_goals first | contradiction | simp_all
/-- Witness of `sendfile_open_failure`: the name `ab` cannot be opened. -/
theorem sendfile_open_failure_witness :
    (exec scripted (sendfile false [] [])
        [⟨4, [2, 0, 0, 0]⟩, ⟨2, [97, 98]⟩, ⟨1, []⟩]).1 = Exit.returned ∧
    sendCalls (exec scripted (sendfile false [] [])
        [⟨4, [2, 0, 0, 0]⟩, ⟨2, [97, 98]⟩, ⟨1, []⟩]).2 =
      [Call.udt_send (encodeInt false 8 (-1)) 8] ∧
    (∀ s, (⟨Call.udt_send (encodeInt false 8 (-1)) 8, s⟩ : Event) ∈
        (exec scripted (sendfile false [] [])
          [⟨4, [2, 0, 0, 0]⟩, ⟨2, [97, 98]⟩, ⟨1, []⟩]).2 → s.ret ≠ ERROR →
      Call.udt_sendfile 0 (-1) ∈ calls (exec scripted (sendfile false [] [])
        [⟨4, [2, 0, 0, 0]⟩, ⟨2, [97, 98]⟩, ⟨1, []⟩]).2) ∧
    (∀ off sz, Call.udt_sendfile off sz ∈ calls (exec scripted (sendfile false [] [])
        [⟨4, [2, 0, 0, 0]⟩, ⟨2, [97, 98]⟩, ⟨1, []⟩]).2 → off = 0 ∧ sz = -1) :=
  sendfile_open_failure scripted _ false [] [] [97, 98] ⟨1, []⟩ (by decide) (by decide)

/-- C9, counterexample. The read of the length returns 2 of its 4 bytes
(2, 0, into a zeroed `len`) and the read of the name 1 of its 2 bytes: neither
return value is `UDT::ERROR`, and the handler goes on to open the file `a`,
which fails, and to send the size header -1. -/
theorem sendfile_short_request_reads_go_on :
    (⟨Call.udt_recv 4, ⟨2, [2, 0]⟩⟩ : Event) ∈
      (exec scripted (sendfile false [] []) [⟨2, [2, 0]⟩, ⟨1, [97]⟩, ⟨1, []⟩]).2 ∧
    (⟨Call.udt_recv 2, ⟨1, [97]⟩⟩ : Event) ∈
      (exec scripted (sendfile false [] []) [⟨2, [2, 0]⟩, ⟨1, [97]⟩, ⟨1, []⟩]).2 ∧
    calls (exec scripted (sendfile false [] []) [⟨2, [2, 0]⟩, ⟨1, [97]⟩, ⟨1, []⟩]).2 =
      [Call.udt_recv 4, Call.udt_recv 2, Call.ifs_open [97], Call.ifs_seekg_end,
        Call.ifs_tellg, Call.ifs_seekg_beg,
        Call.udt_send (encodeInt false 8 (-1)) 8, Call.udt_perfmon,
        Call.udt_sendfile 0 (-1), Call.udt_perfmon, Call.udt_close, Call.ifs_close] := by
  decide

/-- C9, amended. In every responder session in which one of the two request
reads (the `udt_recv` of the length, the `udt_recv` of the name) returns
`UDT::ERROR`, the handler returns without responding: it makes no
`udt_send` and no `udt_sendfile` call, and opens no file. -/
theorem sendfile_request_read_failure {W : Type} (env : Env W) (w : W) (be : Bool)
    (lenJunk fileJunk : List Byte)
    (h : ∃ e ∈ (exec env (sendfile be lenJunk fileJunk) w).2,
      (∃ n, e.call = Call.udt_recv n) ∧ e.reply.ret = ERROR) :
    (exec env (sendfile be lenJunk fileJunk) w).1 = Exit.returned ∧
    (∀ d l, Call.udt_send d l ∉ calls (exec env (sendfile be lenJunk fileJunk) w).2) ∧
    (∀ off sz, Call.udt_sendfile off sz ∉ calls (exec env (sendfile be lenJunk fileJunk) w).2) ∧
    (∀ nm, Call.ifs_open nm ∉ calls (exec env (sendfile be lenJunk fileJunk) w).2) := by
  simp only [sendfile, bind, Prog.bind, Prog.call, pure, calls, ← lenField.eq_1] at h ⊢
  simp only [exec] at h ⊢
  generalize env.handle w (Call.udt_recv 4) = a1 at h ⊢
  obtain ⟨r1, w1⟩ := a1
  by_cases h1 : r1.ret = ERROR
  · rw [if_pos h1]; simp [exec]
  rw [if_neg h1] at h ⊢
  simp only [exec] at h ⊢
  generalize env.handle w1 (Call.udt_recv _) = a2 at h ⊢
  obtain ⟨r2, w2⟩ := a2
  by_cases h2 : r2.ret = ERROR
  · rw [if_pos h2]; simp [exec]
  rw [if_neg h2] at h ⊢
  exfalso
  split_ifs at h with hb1 hb2
  · simp [exec, h1, h2] at h
  swap
  · simp [exec, h1, h2] at h
  clear hb1 hb2
  simp only [exec_ite, exec] at h
  split_ifs at h <;> simp [h1, h2] at h

/-- Witness of `sendfile_request_read_failure`: the read of the name fails. -/
theorem sendfile_request_read_failure_witness :
    (exec scripted (sendfile false [] []) [⟨4, [2, 0, 0, 0]⟩, ⟨-1, []⟩]).1 = Exit.returned ∧
    (∀ d l, Call.udt_send d l ∉
      calls (exec scripted (sendfile false [] []) [⟨4, [2, 0, 0, 0]⟩, ⟨-1, []⟩]).2) ∧
    (∀ off sz, Call.udt_sendfile off sz ∉
      calls (exec scripted (sendfile false [] []) [⟨4, [2, 0, 0, 0]⟩, ⟨-1, []⟩]).2) ∧
    (∀ nm, Call.ifs_open nm ∉
      calls (exec scripted (sendfile false [] []) [⟨4, [2, 0, 0, 0]⟩, ⟨-1, []⟩]).2) :=
  sendfile_request_read_failure scripted _ false [] []
    ⟨⟨Call.udt_recv 2, ⟨-1, []⟩⟩, by decide, ⟨2, rfl⟩, rfl⟩

theorem responder_ifs_open_missing (n : Net) (name : List Byte) (h : n.served name = none) :
    responderHandle n (.ifs_open name) = some (⟨1, []⟩, { n with ifs := none }) := by
  simp only [responderHandle, h]

end UdtFile
